import Mathlib

/-!
Verification of the supportops agent core.

This file gives a shallow embedding, in Lean 4, of the algorithmic core of the
supportops support-chat backend (services/agent/app): the chunker and ingestion
pipeline (ingest.py), the evidence selector (retrieval_selector.py), the
precheck / heuristic classifier (retrieval.py, duplicated in main.py), the
answer generator (answer_generator.py) and the chat decision policy
(service.py, with the older inline variant in main.py).  Python dict rows are
modelled as structures of `Option` fields (an absent key is `none`), Python
floats as rationals, machine strings as Lean strings, and external
collaborators (database, embedding provider, completion provider) as explicit
function parameters.  Theorems about the spec's claims follow the definitions.
-/

namespace SupportOps

/-! ### Python string and dict primitives -/

/-- Accumulating pass behind `pySplit`: `cur` holds the characters of the
word being built, in reverse. -/
def pySplitGo : List Char → List Char → List String
  | [], cur => if cur.isEmpty then [] else [⟨cur.reverse⟩]
  | c :: rest, cur =>
    if c.isWhitespace then
      if cur.isEmpty then pySplitGo rest []
      else ⟨cur.reverse⟩ :: pySplitGo rest []
    else pySplitGo rest (c :: cur)

/-- Python `str.split()` with no argument: split on runs of whitespace and
discard empty fragments. -/
def pySplit (s : String) : List String := pySplitGo s.data []

/-- Python `str.strip()`: remove leading and trailing whitespace. -/
def pyStrip (s : String) : String :=
  ⟨((s.data.dropWhile Char.isWhitespace).reverse.dropWhile Char.isWhitespace).reverse⟩

/-- Python `str.rstrip()`: remove trailing whitespace. -/
def pyRStrip (s : String) : String :=
  ⟨(s.data.reverse.dropWhile Char.isWhitespace).reverse⟩

/-- Python `str.lower()` (the repo only lowercases ASCII text). -/
def pyLower (s : String) : String := ⟨s.data.map Char.toLower⟩

/-- Whether the first character list is a leading segment of the second. -/
def charsLead : List Char → List Char → Bool
  | [], _ => true
  | _ :: _, [] => false
  | a :: as, b :: bs => a = b && charsLead as bs

/-- Whether the first character list occurs contiguously inside the second. -/
def charsInside (needle : List Char) : List Char → Bool
  | [] => needle.isEmpty
  | c :: rest => charsLead needle (c :: rest) || charsInside needle rest

/-- Python `needle in hay` substring membership on strings. -/
def pySubstr (needle hay : String) : Bool := charsInside needle.data hay.data

/-- Python truthiness of an optional string (`None` and `""` are falsy). -/
def pyTruthy : Option String → Bool
  | none => false
  | some s => s ≠ ""

/-- Python `str(x or "")` applied to an optional string field. -/
def pyOrEmpty : Option String → String
  | none => ""
  | some s => s

/-- Python `max(a, b)` on floats, modelled on rationals (an executable form
of `max`, see `pyMax_eq`). -/
def pyMax (a b : ℚ) : ℚ := if a ≤ b then b else a

/-- Python `min(a, b)` on floats, modelled on rationals. -/
def pyMin (a b : ℚ) : ℚ := if a ≤ b then a else b

/-- Python string slice `s[:n]` for a non-negative bound. -/
def pyTake (s : String) (n : Nat) : String := ⟨s.data.take n⟩

/-- Python string slice `s[n:]` for a non-negative start. -/
def pyDrop (s : String) (n : Nat) : String := ⟨s.data.drop n⟩

/-- Python `s.replace("\n", " ")`: a one-character needle and replacement,
so the replacement is a character map. -/
def pyReplaceNl (s : String) : String :=
  ⟨s.data.map (fun c => if c = '\n' then ' ' else c)⟩

/-- Code-point comparison of Python string ordering (`sorted` on `str`). -/
def charsLe : List Char → List Char → Bool
  | [], _ => true
  | _ :: _, [] => false
  | a :: as, b :: bs => if a = b then charsLe as bs else decide (a < b)

/-- Insert into a code-point-sorted list of strings. -/
def insertSorted (x : String) : List String → List String
  | [] => [x]
  | y :: ys => if charsLe x.data y.data then x :: y :: ys else y :: insertSorted x ys

/-- Sort strings in ascending code-point order (Python `sorted`). -/
def sortStrings : List String → List String
  | [] => []
  | x :: xs => insertSorted x (sortStrings xs)

/-- Remove duplicates from a list of strings, keeping one representative per
value (Python `set`; the order is irrelevant because the result is sorted). -/
def dedupStrings : List String → List String
  | [] => []
  | x :: xs => if xs.contains x then dedupStrings xs else x :: dedupStrings xs

/-! ### Chunker (ingest.py, `chunk_text`) -/

/-- The `while start < len(words)` loop of `chunk_text` (ingest.py lines
22-30).  `fuel` is an upper bound on the number of iterations; `chunk_text`
passes `words.length`, which always suffices (see the termination theorem
below).  The natural subtraction `e - overlap` coincides with Python's
`max(0, end - overlap)` because truncated subtraction never goes below zero. -/
def chunkLoop (words : List String) (size overlap : Nat) : Nat → Nat → List String
  | 0, _ => []
  | fuel + 1, start =>
    if start < words.length then
      let e := min words.length (start + size)
      let chunk := pyStrip (String.intercalate " " ((words.drop start).take (e - start)))
      let rest :=
        if words.length ≤ e then []
        else chunkLoop words size overlap fuel (e - overlap)
      if chunk = "" then rest else chunk :: rest
    else []

/-- The function `chunk_text(text, chunk_size, chunk_overlap)` from ingest.py lines 13-31:
split into words, clamp `size` to `[1, 400]` and `overlap` to `[0, size-1]`,
then emit overlapping word windows. -/
def chunk_text (text : String) (chunk_size chunk_overlap : Int) : List String :=
  let words := pySplit text
  if words = [] then []
  else
    let size : Int := max 1 (min chunk_size 400)
    let overlap : Int := max 0 (min chunk_overlap (size - 1))
    chunkLoop words size.toNat overlap.toNat words.length 0

/-- The source function `hash_chunk` is sha256 over the chunk text; the development treats the
hash as an abstract function parameter wherever it is needed, recording only
the property actually used (a sha256 hexdigest is never the empty string). -/
def hashNonempty (hashFn : String → String) : Prop := ∀ s, hashFn s ≠ ""

/-! ### Ingestion pipeline (ingest.py, `run_ingest`)

The database is modelled explicitly: the `kb_chunks` rows stored for the
document are a list of `(id, chunk_hash)` pairs (`run_ingest` selects exactly
those two columns), the document lookup result is an `Option`, deletion
removes the rows whose id is listed, and insertion appends rows whose ids are
produced by a fresh-id source (the database assigns ids on insert).  Database
and embedding transport failures, which `run_ingest` converts to HTTP 500
responses, are outside the store model; the embedding provider is total and
the outcome records how many times `provider.embed` was invoked. -/

/-- A stored `kb_chunks` row, restricted to the columns `run_ingest` reads. -/
structure ChunkRow where
  id : Nat
  chunk_hash : String
deriving DecidableEq, Repr

/-- The fields of a `kb_documents` row that `run_ingest` consumes. -/
structure KbDocument where
  org_id : Option String
  content : String

/-- The error outcomes of `run_ingest` (HTTPException details). -/
inductive IngestError
  | notFound
  | missingOrg
  | emptyContent
deriving DecidableEq, Repr

/-- The counters of `IngestResponse` relevant to the claims. -/
structure IngestResponse where
  chunks_total : Nat
  chunks_inserted : Nat
  chunks_skipped : Nat
  chunks_deleted : Nat
deriving DecidableEq, Repr

/-- Result of one `run_ingest` call: the response, the rows stored for the
document afterwards, and how many `provider.embed` calls were made. -/
structure IngestOutcome where
  resp : IngestResponse
  store : List ChunkRow
  embedCalls : Nat
deriving DecidableEq, Repr

/-- Lookup in an association list used as a Python dict. -/
def dictGet? (m : List (String × Nat)) (k : String) : Option Nat :=
  (m.find? (fun p => p.1 == k)).map Prod.snd

/-- Python dict assignment `m[k] = v`: overwrite an existing key, otherwise
append a new entry (dicts preserve first-insertion order). -/
def dictSet (m : List (String × Nat)) (k : String) (v : Nat) : List (String × Nat) :=
  if (dictGet? m k).isSome then m.map (fun p => if p.1 == k then (p.1, v) else p)
  else m ++ [(k, v)]

/-- The step function used to build `existing_hashes`. -/
def existingStep (m : List (String × Nat)) (r : ChunkRow) : List (String × Nat) :=
  if r.chunk_hash ≠ "" then dictSet m r.chunk_hash r.id else m

/-- The `unique_map` loop of ingest.py lines 85-91: walk the chunk hashes with
their indices and keep the first index seen for each hash. -/
def uniqueScan : List String → Nat → List (String × Nat) → List (String × Nat)
  | [], _, acc => acc
  | h :: rest, i, acc =>
    if (dictGet? acc h).isSome then uniqueScan rest (i + 1) acc
    else uniqueScan rest (i + 1) (acc ++ [(h, i)])

/-- The `existing_hashes` dict comprehension of ingest.py lines 104-108:
`{row.chunk_hash: row.id for row in rows if row.chunk_hash}` (a later row with
the same hash overwrites an earlier one; rows with a falsy hash are skipped). -/
def existingDict (rows : List ChunkRow) : List (String × Nat) :=
  rows.foldl (fun m r => if r.chunk_hash ≠ "" then dictSet m r.chunk_hash r.id else m) []

/-- The function `run_ingest` from ingest.py lines 45-183, for a document lookup result
`doc?` and current stored rows `store`.  `hashFn` stands for `hash_chunk`
(sha256 hexdigest) and `freshId` for the ids the database assigns to the rows
inserted (the i-th inserted row gets `freshId i`).  Rows are inserted from
`zip(to_insert_hashes, to_insert_chunks, embeddings)`; the embedding provider
returns one vector per input text, so the three lists have equal length and
`chunks_inserted = len(to_insert_hashes)`. -/
def runIngest (doc? : Option KbDocument) (store : List ChunkRow)
    (hashFn : String → String) (freshId : Nat → Nat)
    (chunk_size chunk_overlap : Int) (force : Bool) : Except IngestError IngestOutcome :=
  match doc? with
  | none => .error .notFound
  | some doc =>
    if pyTruthy doc.org_id then
      let chunks := chunk_text doc.content chunk_size chunk_overlap
      if chunks = [] then .error .emptyContent
      else
        let chunk_hashes := chunks.map hashFn
        let unique_map := uniqueScan chunk_hashes 0 []
        let existing_hashes := existingDict store
        let new_hashes := unique_map.map Prod.fst
        let to_delete :=
          if force then existing_hashes.map Prod.snd
          else (existing_hashes.filter (fun p => !(new_hashes.contains p.1))).map Prod.snd
        let chunks_deleted := to_delete.length
        let store1 := store.filter (fun r => !(to_delete.contains r.id))
        let existing2 := if force then [] else existing_hashes
        let to_insert_hashes := new_hashes.filter (fun h => (dictGet? existing2 h).isNone)
        let embedCalls := if to_insert_hashes.isEmpty then 0 else 1
        let newRows := to_insert_hashes.enum.map (fun p => ChunkRow.mk (freshId p.1) p.2)
        let chunks_inserted := newRows.length
        let chunks_total := unique_map.length
        .ok { resp := { chunks_total := chunks_total,
                        chunks_inserted := chunks_inserted,
                        chunks_skipped := chunks_total - chunks_inserted,
                        chunks_deleted := chunks_deleted },
              store := store1 ++ newRows,
              embedCalls := embedCalls }
    else .error .missingOrg

/-! ### Evidence selection (retrieval_selector.py, `select_chunks`) -/

/-- A retrieval candidate row as consumed by `select_chunks`: the `id` and
`document_id` keys (absent or `None` keys are `none`), with `payload`
standing for the remaining dict fields, which the selector copies through
untouched. -/
structure SelRow where
  id : Option String
  document_id : Option String
  payload : Nat
deriving DecidableEq, Repr

/-- Dict lookup `per_doc.get(doc_id, 0)` over the per-document counter dict (keys are
unique, so first-match lookup is dict lookup). -/
def pdGet : List (String × Nat) → String → Nat
  | [], _ => 0
  | p :: rest, k => if p.1 = k then p.2 else pdGet rest k

/-- Dict update `per_doc[doc_id] = per_doc.get(doc_id, 0) + 1`: bump the entry in place,
or append a fresh entry (dicts keep insertion order). -/
def pdInc : List (String × Nat) → String → List (String × Nat)
  | [], k => [(k, 1)]
  | p :: rest, k => if p.1 = k then (p.1, p.2 + 1) :: rest else p :: pdInc rest k

/-- The `for row in matches` loop of retrieval_selector.py lines 15-27 with
its running state: rows already selected, chunk ids already seen, and the
per-document counters. -/
def selectGo (maxChunks maxPerDoc : Int) :
    List SelRow → List SelRow → List String → List (String × Nat) → List SelRow
  | [], selected, _, _ => selected
  | row :: rest, selected, seen, perDoc =>
    let chunkId := pyOrEmpty row.id
    if chunkId = "" ∨ chunkId ∈ seen then
      selectGo maxChunks maxPerDoc rest selected seen perDoc
    else
      let docId := pyOrEmpty row.document_id
      if docId ≠ "" ∧ maxPerDoc ≤ (pdGet perDoc docId : Int) then
        selectGo maxChunks maxPerDoc rest selected seen perDoc
      else
        let selected' := selected ++ [row]
        let seen' := seen ++ [chunkId]
        let perDoc' := if docId ≠ "" then pdInc perDoc docId else perDoc
        if maxChunks ≤ (selected'.length : Int) then selected'
        else selectGo maxChunks maxPerDoc rest selected' seen' perDoc'

/-- The function `select_chunks(matches, max_chunks, max_per_doc)` from
retrieval_selector.py lines 6-29 (`matches` is a Lean keyword, hence `rows`). -/
def select_chunks (rows : List SelRow) (max_chunks max_per_doc : Int) : List SelRow :=
  selectGo max_chunks max_per_doc rows [] [] []

/-- How many selected rows carry the given document id (their
`str(row.get("document_id") or "")` equals `d`). -/
def docOcc (l : List SelRow) (d : String) : Nat :=
  (l.filter (fun r => pyOrEmpty r.document_id == d)).length

/-! ### Precheck and heuristic classifier (retrieval.py lines 12-101;
byte-identical copies live in main.py lines 352-441) -/

/-- The fixed ticket keyword tuple of retrieval.py lines 21 and 60. -/
def ticketKeywords : List String :=
  ["bug", "error", "issue", "incident", "crash", "outage", "fail"]

/-- Reply texts used by the heuristics. -/
def detailPrompt : String := "Please share a bit more detail so I can help."

/-- Ticket-creation acknowledgement text. -/
def ticketReplyText : String :=
  "Thanks for reporting this. I am creating a ticket and will follow up with next steps."

/-- The built-in clarification question (prompts.py, `DEFAULT_CLARIFY_PROMPT`). -/
def defaultClarifyPrompt : String :=
  "Can you add more context (account, steps, and expected behavior)?"

/-- Generic knowledge-base fallback reply of `decide_response`. -/
def kbFallbackReply : String :=
  "Thanks. I am checking our knowledge base. For now, try restarting the app and share any error code."

/-- The function `normalize_tags` from retrieval.py lines 81-87: strip and lowercase each
tag, drop the falsy ones, then `sorted(set(...))`. -/
def normalize_tags (tags : List String) : List String :=
  let normalized := (tags.map (fun t => pyLower (pyStrip t))).filter (fun t => t ≠ "")
  sortStrings (dedupStrings normalized)

/-- The function `extract_hash_tags` from retrieval.py lines 90-95: words that start with
`#` and have length over one contribute their remainder. -/
def extract_hash_tags (message : String) : List String :=
  normalize_tags ((pySplit message).filterMap (fun w =>
    if charsLead ['#'] w.data ∧ 1 < w.length then some (pyDrop w 1) else none))

/-- The function `decide_response` from retrieval.py lines 12-40 (same code in main.py):
returns `(reply, action, confidence)`. -/
def decide_response (message : String) : String × String × ℚ :=
  let msg := pyLower (pyStrip message)
  if msg = "" then (detailPrompt, "ask_clarifying", 0.2)
  else if ticketKeywords.any (fun k => pySubstr k msg) then
    (ticketReplyText, "create_ticket", 0.35)
  else if (pySplit msg).length < 4 then
    (defaultClarifyPrompt, "ask_clarifying", 0.45)
  else (kbFallbackReply, "reply", 0.7)

/-- The function `precheck_action` from retrieval.py lines 43-78 (same code in main.py
lines 383-418): `None` means the heuristics defer to retrieval. -/
def precheck_action (message : String) : Option (String × String × ℚ) :=
  let msg := pyLower (pyStrip message)
  let tags := extract_hash_tags msg
  if msg = "" then some (detailPrompt, "ask_clarifying", 0.2)
  else if ticketKeywords.any (fun k => pySubstr k msg) then
    some (ticketReplyText, "create_ticket", 0.35)
  else if tags ≠ [] then none
  else if (pySplit msg).length < 4 then
    some (defaultClarifyPrompt, "ask_clarifying", 0.45)
  else none

/-- The decision section of the `/v1/chat` endpoint in main.py lines 854-864:
a precheck hit short-circuits; otherwise the knowledge-base retrieval result
(`retrieve_kb_reply`, whose value the `kbReply` argument stands for) is used
when present, else the heuristic classifier.  Returns
`(reply, action, confidence, citations)`. -/
def mainChatDecide (message : String)
    (kbReply : Option (String × List Nat × ℚ)) : String × String × ℚ × Option (List Nat) :=
  match precheck_action message with
  | some (reply, action, conf) => (reply, action, conf, none)
  | none =>
    match kbReply with
    | some (reply, cits, conf) => (reply, "reply", conf, some cits)
    | none =>
      let (reply, action, conf) := decide_response message
      (reply, action, conf, none)

/-! ### Answer generator (answer_generator.py) -/

/-- An evidence chunk row as consumed by the answer generator (keys read by
`filter_chunks_by_org`, `estimate_confidence` and `build_context`; an absent
or `None` key is `none`). -/
structure GChunk where
  id : Option String
  document_id : Option String
  document_title : Option String
  content : Option String
  org_id : Option String
  similarity : Option ℚ
deriving DecidableEq, Repr

/-- Environment configuration read by `generate_answer`: `LLM_PROVIDER` and
`LLM_MODEL` (already lowercased/stripped as in lines 23-24),
`ALLOW_GLOBAL_CHUNKS`, `CHUNK_CONTEXT_MAX_CHARS`, `CONTEXT_TOTAL_MAX_CHARS`,
and the clarification prompt `get_clarify_prompt()` resolves to. -/
structure GenEnv where
  provider : String
  model : String
  allow_global : Bool
  chunk_context_max_chars : Int
  context_total_max_chars : Int
  clarify : String

/-- The function `estimate_confidence` from answer_generator.py lines 265-273: the maximum
numeric similarity clamped to `[0, 0.95]`; without numeric similarities,
`0.6` when chunks exist and `0.4` otherwise. -/
def estimate_confidence (chunks : List GChunk) : ℚ :=
  let similarities := chunks.filterMap (fun c => c.similarity)
  match similarities with
  | [] => if chunks ≠ [] then 0.6 else 0.4
  | s :: rest => pyMax 0 (pyMin 0.95 (rest.foldl pyMax s))

/-- The function `filter_chunks_by_org` from answer_generator.py lines 276-306 (the
write-once config log is irrelevant to the result): a falsy `org_id` keeps
everything; otherwise keep chunks of the same org, plus ownerless chunks when
`ALLOW_GLOBAL_CHUNKS` is set. -/
def filter_chunks_by_org (chunks : List GChunk) (org_id : Option String)
    (allow_global : Bool) : List GChunk :=
  if pyTruthy org_id then
    chunks.filter (fun c => c.org_id == org_id || (allow_global && c.org_id == none))
  else chunks

/-- The function `looks_uncertain` from answer_generator.py lines 325-337: the lowercased
reply contains one of the fixed hedging phrases. -/
def looks_uncertain (reply : String) : Bool :=
  let lowered := pyLower reply
  ["i don\x27t know", "insufficient", "not enough information",
   "no tengo suficiente", "no cuento con", "no tengo informacion",
   "no dispongo de", "necesito mas contexto"].any (fun t => pySubstr t lowered)

/-- The function `adjust_confidence` from answer_generator.py lines 309-322. -/
def adjust_confidence (confidence : ℚ) (context_chars : Int) (chunk_count : Nat)
    (reply : String) : ℚ :=
  let a1 := if (chunk_count : Int) < 2 then confidence * 0.9 else confidence
  let a2 := if context_chars < 400 then a1 * 0.8 else a1
  let a3 := if looks_uncertain reply then a2 * 0.5 else a2
  pyMax 0.05 (pyMin 0.95 a3)

/-- One step of the `for chunk in chunks` loop of `build_context`
(answer_generator.py lines 228-251), carrying the accumulated `parts` and
`total_chars`; returns the updated state, or `none` when the loop breaks. -/
def buildContextStep (maxChars totalMax : Int) (chunk : GChunk)
    (acc : List String × Int) : Option (List String × Int) :=
  let (parts, total) := acc
  let content0 := pyReplaceNl (pyStrip (pyOrEmpty chunk.content))
  if content0 = "" then some (parts, total)
  else
    let content :=
      if 0 < maxChars ∧ maxChars < (content0.length : Int) then
        pyRStrip (pyTake content0 maxChars.toNat) ++ "..."
      else content0
    let header := "[chunk_id=" ++ pyStrip (pyOrEmpty chunk.id) ++ " doc_id=" ++
      pyStrip (pyOrEmpty chunk.document_id) ++ " source=" ++
      pyStrip (pyOrEmpty chunk.document_title) ++ "]"
    let header_line := header ++ "\n"
    let block := header_line ++ content
    if 0 < totalMax ∧ totalMax ≤ total then none
    else if 0 < totalMax ∧ totalMax < total + (block.length : Int) then
      let remaining := totalMax - total
      if remaining ≤ (header_line.length : Int) then none
      else
        let block' := header_line ++ pyRStrip (pyTake content (remaining - header_line.length).toNat)
        some (parts ++ [block'], total + (block'.length : Int))
    else some (parts ++ [block], total + (block.length : Int))

/-- The loop of `build_context`, stopping at the first `break`. -/
def buildContextGo (maxChars totalMax : Int) :
    List GChunk → List String × Int → List String × Int
  | [], acc => acc
  | c :: rest, acc =>
    match buildContextStep maxChars totalMax c acc with
    | none => acc
    | some acc' => buildContextGo maxChars totalMax rest acc'

/-- The function `build_context` from answer_generator.py lines 221-252: returns the
assembled context and the running character total. -/
def build_context (chunks : List GChunk) (maxChars totalMax : Int) : String × Int :=
  let (parts, total) := buildContextGo maxChars totalMax chunks ([], 0)
  (pyStrip (String.intercalate "\n\n" parts), total)

/-- The function `generate_answer` from answer_generator.py lines 17-95.  `llm` stands for
`call_llm` on the fixed provider/model: given the query and assembled
context it yields the stripped completion text, or an error for any raised
exception (transport failure after retries, non-retryable status, bad JSON,
missing key).  Returns `(reply, confidence, generation_source)`. -/
def generate_answer (env : GenEnv) (llm : String → String → Except Unit String)
    (query : String) (chunks : List GChunk) (org_id : Option String) :
    String × ℚ × String :=
  let filtered_chunks := filter_chunks_by_org chunks org_id env.allow_global
  if pyTruthy org_id ∧ filtered_chunks = [] then (env.clarify, 0.4, "filtered_empty")
  else
    let confidence := estimate_confidence filtered_chunks
    if env.provider = "" ∨ env.model = "" then (env.clarify, confidence, "fallback")
    else
      let bc :=
        build_context filtered_chunks env.chunk_context_max_chars env.context_total_max_chars
      if bc.1 = "" then (env.clarify, confidence, "fallback")
      else
        match llm query bc.1 with
        | .error _ => (env.clarify, confidence, "fallback")
        | .ok reply =>
          if reply = "" then (env.clarify, confidence, "fallback")
          else
            (reply, adjust_confidence confidence bc.2 filtered_chunks.length reply, "llm")

/-! ### Decision policy (service.py, `handle_chat`)

`handle_chat` is embedded as a pure function of the data its collaborators
supply: the prior messages the messages repo returns, the retriever's result
(`deps.retriever.retrieve`), the ticket id the tickets repo would return, a
fresh conversation id, the policy configuration and the clarification
prompt.  Message/run persistence always succeeds in this model (run-record
failure is swallowed by the code anyway); every exception the code catches at
line 365 surfaces as `Except.error "db_error"` (`ServiceError`). -/

/-- The record `PolicyConfig` from service.py lines 24-36. -/
structure PolicyConfig where
  context_message_limit : Int
  context_max_chars : Int
  reply_min_similarity : ℚ

/-- The fields of `ChatRequest` the decision logic reads. -/
structure ChatPayload where
  conversation_id : Option String
  message : String

/-- A stored conversation message row (`role`, `content`). -/
structure Msg where
  role : Option String
  content : Option String
deriving DecidableEq, Repr

/-- Python string slice `s[-n:]` for positive `n`. -/
def pyTakeRight (s : String) (n : Nat) : String := ⟨s.data.drop (s.data.length - n)⟩

/-- One line of `build_context` (context_utils.py lines 42-50): messages with
role `user`/`assistant`/`system` and truthy stripped content contribute
`"role: normalized"`. -/
def contextLine (m : Msg) : Option String :=
  if m.role = some "user" ∨ m.role = some "assistant" ∨ m.role = some "system" then
    let content := pyStrip (pyOrEmpty m.content)
    if content = "" then none
    else some (pyOrEmpty m.role ++ ": " ++ String.intercalate " " (pySplit content))
  else none

/-- The function `build_context` from context_utils.py lines 37-54: join the kept lines,
strip, and keep the last `max_chars` characters when over budget. -/
def build_context_messages (messages : List Msg) (max_chars : Int) : String :=
  if messages = [] then ""
  else
    let ctx := pyStrip (String.intercalate "\n" (messages.filterMap contextLine))
    if 0 < max_chars ∧ max_chars < (ctx.length : Int) then pyTakeRight ctx max_chars.toNat
    else ctx

/-- The function `build_retrieval_query` from service.py lines 70-103, reduced to the pair
`(decision_message, retrieval_query)` (the context entries it adds to
`run_metadata` are never read by the decision logic). -/
def build_retrieval_query (payload : ChatPayload) (context_text : String)
    (prior_messages : List Msg) (clarify : String) : String × String :=
  if context_text = "" then (payload.message, payload.message)
  else
    let decision_message := context_text ++ "\nuser: " ++ payload.message
    let user_context := prior_messages.filterMap (fun m =>
      if m.role == some "user" && pyTruthy m.content then
        some (pyStrip (pyOrEmpty m.content))
      else none)
    let last_assistant :=
      (((prior_messages.reverse.find? (fun m => m.role == some "assistant")).map
        (fun m => pyStrip (pyOrEmpty m.content))).getD "")
    if last_assistant = clarify ∧ user_context ≠ [] then
      let recent_users := user_context.drop (user_context.length - 2)
      (decision_message, pyStrip (String.intercalate "\n" (recent_users ++ [payload.message])))
    else (decision_message, payload.message)

/-- The retriever metadata keys the decision logic reads
(`retrieval_source`, `top_similarity`; `none` models an absent or
non-numeric value). -/
structure RunMeta where
  retrieval_source : Option String
  top_similarity : Option ℚ
deriving DecidableEq, Repr

/-- A successful `deps.retriever.retrieve` result:
`(reply, citations, confidence, run_metadata)`.  Citation dicts are opaque. -/
structure RetrieverRes where
  reply : String
  citations : Option (List Nat)
  confidence : ℚ
  meta : RunMeta
deriving DecidableEq, Repr

/-- Python falsiness of the `citations` value (`None` or an empty list). -/
def pyFalsyList : Option (List Nat) → Bool
  | none => true
  | some l => l.isEmpty

/-- The mutable decision state after retrieval (service.py locals `reply`,
`action`, `confidence`, `citations`, `guardrail_reason`, plus the
`decision_source` and `decision_reason` slots of `run_metadata`). -/
structure GuardState where
  reply : String
  action : String
  confidence : ℚ
  citations : Option (List Nat)
  guardrail : Option String
  decision_source : String
  decision_reason : String
deriving DecidableEq, Repr

/-- The low-similarity guardrail (service.py lines 222-235). -/
def guardLowSimilarity (policy : PolicyConfig) (clarify : String) (meta : RunMeta)
    (st : GuardState) : GuardState :=
  if st.action = "reply" ∧ meta.retrieval_source = some "vector" then
    match meta.top_similarity with
    | some ts =>
      if ts < policy.reply_min_similarity then
        { reply := clarify, action := "ask_clarifying", confidence := pyMin st.confidence 0.4,
          citations := none, guardrail := some "low_similarity",
          decision_source := "guardrail", decision_reason := "guardrail_low_similarity" }
      else st
    | none => st
  else st

/-- The missing-citations guardrail (service.py lines 237-247). -/
def guardMissingCitations (clarify : String) (st : GuardState) : GuardState :=
  if st.action = "reply" ∧ pyFalsyList st.citations then
    { reply := clarify, action := "ask_clarifying", confidence := pyMin st.confidence 0.4,
      citations := none, guardrail := some "missing_citations",
      decision_source := "guardrail", decision_reason := "guardrail_missing_citations" }
  else st

/-- The fields of the returned `ChatResponse` (service.py lines 389-399);
`decision_reason` is always a string by then (`"unspecified"` default). -/
structure ChatResp where
  conversation_id : String
  reply : String
  action : String
  confidence : ℚ
  ticket_id : Option String
  citations : Option (List Nat)
  decision_reason : String
  decision_source : String
  guardrail : Option String
deriving DecidableEq, Repr

/-- Python `conversation_id = payload.conversation_id or str(uuid.uuid4())`. -/
def chatConvId (payload : ChatPayload) (freshId : String) : String :=
  if pyTruthy payload.conversation_id then pyOrEmpty payload.conversation_id else freshId

/-- The `(decision_message, retrieval_query)` pair `handle_chat` computes
(service.py lines 146-171): prior context is loaded and windowed only when
the request names an existing conversation. -/
def chatDecisionInputs (payload : ChatPayload) (priorMessages : List Msg)
    (policy : PolicyConfig) (clarify : String) : String × String :=
  let prior := if pyTruthy payload.conversation_id then priorMessages else []
  let context_text :=
    if pyTruthy payload.conversation_id then build_context_messages prior policy.context_max_chars
    else ""
  build_retrieval_query payload context_text prior clarify

/-- The function `handle_chat` from service.py lines 106-399.  Note: lines 176 and 195
unpack the 3-tuples returned by `precheck_action` and `decide_response` into
four names; the resulting `ValueError` is caught by the line-365 handler and
re-raised as `ServiceError("db_error")`, so only the knowledge-base retrieval
branch can complete.  A missing ticket id raises `RuntimeError` inside the
same `try`, with the same surfaced error. -/
def handle_chat (payload : ChatPayload) (org_id : String) (freshConvId : String)
    (priorMessages : List Msg)
    (retriever : String → String → String → Option RetrieverRes)
    (createTicket : Option String) (policy : PolicyConfig) (clarify : String) :
    Except String ChatResp :=
  let conversation_id := chatConvId payload freshConvId
  let inputs := chatDecisionInputs payload priorMessages policy clarify
  match precheck_action inputs.1 with
  | some _ => .error "db_error"
  | none =>
    match retriever inputs.2 org_id conversation_id with
    | none => .error "db_error"
    | some res =>
      let decision_reason :=
        if res.meta.retrieval_source == some "vector" then "kb_vector_match"
        else "kb_document_match"
      let st0 : GuardState :=
        { reply := res.reply, action := "reply", confidence := res.confidence,
          citations := res.citations, guardrail := none, decision_source := "kb",
          decision_reason := decision_reason }
      let st1 := guardLowSimilarity policy clarify res.meta st0
      let st2 := guardMissingCitations clarify st1
      if st2.action = "create_ticket" ∨ st2.action = "escalate" then
        match createTicket with
        | some tid =>
          if tid = "" then .error "db_error"
          else .ok { conversation_id := conversation_id, reply := st2.reply,
                     action := st2.action, confidence := st2.confidence,
                     ticket_id := some tid, citations := st2.citations,
                     decision_reason := st2.decision_reason,
                     decision_source := st2.decision_source, guardrail := st2.guardrail }
        | none => .error "db_error"
      else
        .ok { conversation_id := conversation_id, reply := st2.reply, action := st2.action,
              confidence := st2.confidence, ticket_id := none, citations := st2.citations,
              decision_reason := st2.decision_reason,
              decision_source := st2.decision_source, guardrail := st2.guardrail }

/-! ## Theorems -/

/-! ### Chunker: windows, clamping, termination (claims C7, C10) -/

/-- The chunking loop gives the same answer under any sufficient fuel:
starting from index `start`, at most `words.length - start` iterations run,
because each iteration that continues advances `start` by
`size - overlap ≥ 1`. -/
theorem chunkLoop_congr (words : List String) (size overlap : Nat) (hov : overlap < size) :
    ∀ f1 f2 start, words.length - start ≤ f1 → words.length - start ≤ f2 →
      chunkLoop words size overlap f1 start = chunkLoop words size overlap f2 start := by
  intro f1
  induction f1 with
  | zero =>
    intro f2 start h1 _
    have hs : words.length ≤ start := Nat.sub_eq_zero_iff_le.mp (Nat.le_zero.mp h1)
    cases f2 with
    | zero => rfl
    | succ g2 => simp [chunkLoop, Nat.not_lt.mpr hs]
  | succ g1 ih =>
    intro f2 start h1 h2
    cases f2 with
    | zero =>
      have hs : words.length ≤ start := Nat.sub_eq_zero_iff_le.mp (Nat.le_zero.mp h2)
      simp [chunkLoop, Nat.not_lt.mpr hs]
    | succ g2 =>
      by_cases hlt : start < words.length
      · by_cases hbrk : words.length ≤ min words.length (start + size)
        · simp only [chunkLoop, if_pos hlt, if_pos hbrk]
        · have hrec1 : words.length - (min words.length (start + size) - overlap) ≤ g1 := by
            omega
          have hrec2 : words.length - (min words.length (start + size) - overlap) ≤ g2 := by
            omega
          simp only [chunkLoop, if_pos hlt, if_neg hbrk]
          rw [ih g2 (min words.length (start + size) - overlap) hrec1 hrec2]
      · simp [chunkLoop, hlt]

/-- C10: `chunk_text` terminates on every input, including non-positive
`chunk_size` and `chunk_overlap ≥ chunk_size`: after clamping,
`overlap < size`, each loop iteration advances the window start by at least
one word, and the loop under any fuel of at least the word count equals
`chunk_text` (which runs it with fuel `words.length`). -/
theorem chunk_text_terminates (text : String) (cs co : Int) (fuel : Nat)
    (h : (pySplit text).length ≤ fuel) :
    chunkLoop (pySplit text) (max 1 (min cs 400)).toNat
      (max 0 (min co (max 1 (min cs 400) - 1))).toNat fuel 0 = chunk_text text cs co := by
  have hov : (max 0 (min co (max 1 (min cs 400) - 1))).toNat < (max 1 (min cs 400)).toNat := by
    omega
  simp only [chunk_text]
  by_cases hw : pySplit text = []
  · rw [if_pos hw, hw]
    exact chunkLoop_congr [] _ _ hov fuel 0 0 (by simp) (by simp)
  · rw [if_neg hw]
    exact chunkLoop_congr _ _ _ hov fuel _ 0 h (le_refl _)

/-- Witness for the termination theorem at a concrete input. -/
theorem chunk_text_terminates_witness :
    (pySplit "alpha beta gamma").length ≤ 7 ∧
      chunkLoop (pySplit "alpha beta gamma") (max 1 (min (2 : Int) 400)).toNat
        (max 0 (min (1 : Int) (max 1 (min (2 : Int) 400) - 1))).toNat 7 0 =
        chunk_text "alpha beta gamma" 2 1 :=
  ⟨by decide, chunk_text_terminates "alpha beta gamma" 2 1 7 (by decide)⟩

set_option maxRecDepth 40000

/-- C7: on 130 words with `chunk_size=120, chunk_overlap=20`, `chunk_text`
returns exactly the window of words 0-119 and the window of words 100-129;
in general the effective size is clamped to `[1, 400]` and the effective
overlap to `[0, size-1]` (running `chunk_text` on the clamped parameters
changes nothing), and empty text yields the empty list. -/
theorem chunk_text_props :
    (chunk_text (String.intercalate " " (List.replicate 130 "w")) 120 20 =
      [String.intercalate " " ((List.replicate 130 "w").take 120),
       String.intercalate " " (((List.replicate 130 "w").drop 100).take 30)]) ∧
    (∀ (text : String) (cs co : Int),
      chunk_text text cs co =
        chunk_text text (max 1 (min cs 400)) (max 0 (min co (max 1 (min cs 400) - 1))) ∧
      1 ≤ max 1 (min cs 400) ∧ max 1 (min cs 400) ≤ 400 ∧
      0 ≤ max 0 (min co (max 1 (min cs 400) - 1)) ∧
      max 0 (min co (max 1 (min cs 400) - 1)) ≤ max 1 (min cs 400) - 1) ∧
    (∀ cs co : Int, chunk_text "" cs co = []) := by
  refine ⟨by decide, ?_, ?_⟩
  · intro text cs co
    have h1 : max 1 (min (max 1 (min cs 400)) 400) = max 1 (min cs 400) := by omega
    refine ⟨?_, by omega, by omega, by omega, by omega⟩
    simp only [chunk_text, h1]
    have h2 : max 0 (min (max 0 (min co (max 1 (min cs 400) - 1))) (max 1 (min cs 400) - 1)) =
        max 0 (min co (max 1 (min cs 400) - 1)) := by omega
    rw [h2]
  · intro cs co
    have hw : pySplit "" = [] := by decide
    simp [chunk_text, hw]

/-! ### Selection invariants (claim C2) -/

/-- Bumping a document's counter increments exactly that key. -/
theorem pdGet_pdInc_self (m : List (String × Nat)) (k : String) :
    pdGet (pdInc m k) k = pdGet m k + 1 := by
  induction m with
  | nil => simp [pdGet, pdInc]
  | cons p rest ih =>
    by_cases h : p.1 = k <;> simp [pdGet, pdInc, h, ih]

/-- Bumping a document's counter leaves other keys alone. -/
theorem pdGet_pdInc_other (m : List (String × Nat)) (k d : String) (h : d ≠ k) :
    pdGet (pdInc m k) d = pdGet m d := by
  have hk : k ≠ d := Ne.symm h
  induction m with
  | nil => simp [pdGet, pdInc, hk]
  | cons p rest ih =>
    by_cases hp : p.1 = k
    · simp [pdGet, pdInc, hp, hk]
    · by_cases hd : p.1 = d <;> simp [pdGet, pdInc, hp, hd, h, ih]

/-- Appending one row to the selection adds one occurrence of its document
id and none of any other. -/
theorem docOcc_append (l : List SelRow) (r : SelRow) (d : String) :
    docOcc (l ++ [r]) d =
      docOcc l d + (if pyOrEmpty r.document_id = d then 1 else 0) := by
  by_cases h : pyOrEmpty r.document_id = d <;>
    simp [docOcc, List.filter_append, h]

/-- The loop invariant of `select_chunks`: ids of selected rows are nonempty,
distinct, and recorded in `seen`; for each nonempty document id the per-doc
counter equals the number of selected rows carrying it; and every counter
already respects the cap. -/
def selInv (maxPerDoc : Int) (selected : List SelRow) (seen : List String)
    (perDoc : List (String × Nat)) : Prop :=
  (selected.map (fun r => pyOrEmpty r.id)).Nodup ∧
  (∀ r ∈ selected, pyOrEmpty r.id ≠ "" ∧ pyOrEmpty r.id ∈ seen) ∧
  (∀ d, d ≠ "" → docOcc selected d = pdGet perDoc d) ∧
  (∀ d, d ≠ "" → (pdGet perDoc d : Int) ≤ max maxPerDoc 0)

/-- Branch equation: a row with a falsy or already-seen chunk id is skipped. -/
theorem selectGo_cons_skip (maxChunks maxPerDoc : Int) (row : SelRow)
    (rest selected : List SelRow) (seen : List String) (perDoc : List (String × Nat))
    (h : pyOrEmpty row.id = "" ∨ pyOrEmpty row.id ∈ seen) :
    selectGo maxChunks maxPerDoc (row :: rest) selected seen perDoc =
      selectGo maxChunks maxPerDoc rest selected seen perDoc := by
  simp only [selectGo]
  rw [if_pos h]

/-- Branch equation: a row whose document already reached the cap is skipped. -/
theorem selectGo_cons_cap (maxChunks maxPerDoc : Int) (row : SelRow)
    (rest selected : List SelRow) (seen : List String) (perDoc : List (String × Nat))
    (h : ¬(pyOrEmpty row.id = "" ∨ pyOrEmpty row.id ∈ seen))
    (hc : pyOrEmpty row.document_id ≠ "" ∧
      maxPerDoc ≤ (pdGet perDoc (pyOrEmpty row.document_id) : Int)) :
    selectGo maxChunks maxPerDoc (row :: rest) selected seen perDoc =
      selectGo maxChunks maxPerDoc rest selected seen perDoc := by
  simp only [selectGo]
  rw [if_neg h, if_pos hc]

/-- Branch equation: an admissible row is appended, then the loop stops or
continues on the updated state. -/
theorem selectGo_cons_take (maxChunks maxPerDoc : Int) (row : SelRow)
    (rest selected : List SelRow) (seen : List String) (perDoc : List (String × Nat))
    (h : ¬(pyOrEmpty row.id = "" ∨ pyOrEmpty row.id ∈ seen))
    (hc : ¬(pyOrEmpty row.document_id ≠ "" ∧
      maxPerDoc ≤ (pdGet perDoc (pyOrEmpty row.document_id) : Int))) :
    selectGo maxChunks maxPerDoc (row :: rest) selected seen perDoc =
      if maxChunks ≤ ((selected ++ [row]).length : Int) then selected ++ [row]
      else selectGo maxChunks maxPerDoc rest (selected ++ [row])
        (seen ++ [pyOrEmpty row.id])
        (if pyOrEmpty row.document_id ≠ "" then
          pdInc perDoc (pyOrEmpty row.document_id) else perDoc) := by
  simp only [selectGo]
  rw [if_neg h, if_neg hc]

/-- Main induction for claim C2: from any state satisfying the invariant
with room left under `max_chunks`, the loop result respects all three
selection bounds. -/
theorem selectGo_inv (maxChunks maxPerDoc : Int) :
    ∀ (rows selected : List SelRow) (seen : List String) (perDoc : List (String × Nat)),
      selInv maxPerDoc selected seen perDoc →
      (selected.length : Int) < maxChunks →
      ((selectGo maxChunks maxPerDoc rows selected seen perDoc).length : Int) ≤ maxChunks ∧
      ((selectGo maxChunks maxPerDoc rows selected seen perDoc).map
        (fun r => pyOrEmpty r.id)).Nodup ∧
      (∀ d, d ≠ "" →
        (docOcc (selectGo maxChunks maxPerDoc rows selected seen perDoc) d : Int) ≤
          max maxPerDoc 0) := by
  intro rows
  induction rows with
  | nil =>
    intro selected seen perDoc hinv hroom
    obtain ⟨h1, _, h3, h4⟩ := hinv
    refine ⟨le_of_lt hroom, h1, ?_⟩
    intro d hd
    show (docOcc selected d : Int) ≤ max maxPerDoc 0
    rw [h3 d hd]
    exact h4 d hd
  | cons row rest ih =>
    intro selected seen perDoc hinv hroom
    obtain ⟨h1, h2, h3, h4⟩ := hinv
    by_cases hskip : pyOrEmpty row.id = "" ∨ pyOrEmpty row.id ∈ seen
    · rw [selectGo_cons_skip _ _ _ _ _ _ _ hskip]
      exact ih selected seen perDoc ⟨h1, h2, h3, h4⟩ hroom
    · by_cases hcap : pyOrEmpty row.document_id ≠ "" ∧
        maxPerDoc ≤ (pdGet perDoc (pyOrEmpty row.document_id) : Int)
      · rw [selectGo_cons_cap _ _ _ _ _ _ _ hskip hcap]
        exact ih selected seen perDoc ⟨h1, h2, h3, h4⟩ hroom
      · -- the row is selected
        have hne : pyOrEmpty row.id ≠ "" := fun h => hskip (Or.inl h)
        have hnotseen : pyOrEmpty row.id ∉ seen := fun h => hskip (Or.inr h)
        have hid : pyOrEmpty row.id ∉ selected.map (fun r => pyOrEmpty r.id) := by
          intro hmem
          obtain ⟨r, hr, hrid⟩ := List.mem_map.mp hmem
          exact hnotseen (hrid ▸ (h2 r hr).2)
        have hnodup' : ((selected ++ [row]).map (fun r => pyOrEmpty r.id)).Nodup := by
          rw [List.map_append, List.map_singleton]
          exact List.Nodup.append h1 (List.nodup_singleton _)
            (List.disjoint_singleton.mpr hid)
        have hcapLt : ∀ d, d ≠ "" → pyOrEmpty row.document_id = d →
            (pdGet perDoc d : Int) < maxPerDoc := by
          intro d hd hdoc
          rcases not_and_or.mp hcap with hc | hc
          · exact absurd (hdoc ▸ hd) hc
          · rw [← hdoc]
            exact lt_of_not_le hc
        have hocc' : ∀ d, d ≠ "" →
            (docOcc (selected ++ [row]) d : Int) ≤ max maxPerDoc 0 := by
          intro d hd
          rw [docOcc_append]
          by_cases hdoc : pyOrEmpty row.document_id = d
          · have hlt := hcapLt d hd hdoc
            have heq := h3 d hd
            rw [if_pos hdoc]
            have hle : (maxPerDoc : Int) ≤ max maxPerDoc 0 := le_max_left _ _
            push_cast
            omega
          · rw [if_neg hdoc, Nat.add_zero, h3 d hd]
            exact h4 d hd
        by_cases hfull : maxChunks ≤ ((selected ++ [row]).length : Int)
        · rw [selectGo_cons_take _ _ _ _ _ _ _ hskip hcap, if_pos hfull]
          refine ⟨?_, hnodup', hocc'⟩
          have hlen : (selected ++ [row]).length = selected.length + 1 := by simp
          rw [hlen]
          push_cast
          omega
        · have hinv' : selInv maxPerDoc (selected ++ [row]) (seen ++ [pyOrEmpty row.id])
              (if pyOrEmpty row.document_id ≠ "" then
                pdInc perDoc (pyOrEmpty row.document_id) else perDoc) := by
            refine ⟨hnodup', ?_, ?_, ?_⟩
            · intro r hr
              rcases List.mem_append.mp hr with hr | hr
              · exact ⟨(h2 r hr).1, List.mem_append_left _ (h2 r hr).2⟩
              · rcases List.mem_singleton.mp hr with rfl
                exact ⟨hne, List.mem_append_right _ (List.mem_singleton.mpr rfl)⟩
            · intro d hd
              rw [docOcc_append]
              by_cases hdocne : pyOrEmpty row.document_id ≠ ""
              · rw [if_pos hdocne]
                by_cases hdoc : pyOrEmpty row.document_id = d
                · rw [hdoc, pdGet_pdInc_self, if_pos rfl, h3 d hd]
                · rw [pdGet_pdInc_other _ _ _ (fun hh => hdoc hh.symm), if_neg hdoc,
                    Nat.add_zero, h3 d hd]
              · push_neg at hdocne
                have hdoc : pyOrEmpty row.document_id ≠ d := by
                  rw [hdocne]
                  exact fun hh => hd hh.symm
                rw [if_neg (fun hh : ¬pyOrEmpty row.document_id = "" => hh hdocne),
                  if_neg hdoc, Nat.add_zero]
                exact h3 d hd
            · intro d hd
              by_cases hdocne : pyOrEmpty row.document_id ≠ ""
              · rw [if_pos hdocne]
                by_cases hdoc : pyOrEmpty row.document_id = d
                · rw [hdoc, pdGet_pdInc_self]
                  have hlt := hcapLt d hd hdoc
                  push_cast
                  omega
                · rw [pdGet_pdInc_other _ _ _ (fun hh => hdoc hh.symm)]
                  exact h4 d hd
              · push_neg at hdocne
                rw [if_neg (fun hh : ¬pyOrEmpty row.document_id = "" => hh hdocne)]
                exact h4 d hd
          have hroom' : ((selected ++ [row]).length : Int) < maxChunks :=
            lt_of_not_le hfull
          rw [selectGo_cons_take _ _ _ _ _ _ _ hskip hcap, if_neg hfull]
          exact ih (selected ++ [row]) (seen ++ [pyOrEmpty row.id]) _ hinv' hroom'

/-- C2 counterexample: with `max_chunks = 0` one candidate is still selected
(the cap is only checked after an append), and rows whose `document_id` is
missing escape the per-document cap, so the claim's universally quantified
invariants fail at `max_chunks = 0, max_per_doc = -1`. -/
theorem select_chunks_claim_false :
    select_chunks [⟨some "a", none, 0⟩, ⟨some "b", none, 1⟩] 0 (-1) =
      [⟨some "a", none, 0⟩] ∧
    ¬ (((select_chunks [⟨some "a", none, 0⟩, ⟨some "b", none, 1⟩] 0 (-1)).length : Int) ≤ 0) ∧
    ¬ ((docOcc (select_chunks [⟨some "a", none, 0⟩, ⟨some "b", none, 1⟩] 0 (-1)) "" : Int)
        ≤ -1) := by
  decide

/-- C2 (amended): whenever `max_chunks ≥ 1`, the selection has length at most
`max_chunks` (a non-positive `max_chunks` still admits one row); the selected
chunk ids are nonempty and pairwise distinct; and every nonempty document id
occurs at most `max(max_per_doc, 0)` times (rows without a document id are
exempt from the per-document cap). -/
theorem select_chunks_invariants (rows : List SelRow) (mc mpd : Int) (hmc : 1 ≤ mc) :
    ((select_chunks rows mc mpd).length : Int) ≤ mc ∧
    ((select_chunks rows mc mpd).map (fun r => pyOrEmpty r.id)).Nodup ∧
    (∀ d, d ≠ "" → (docOcc (select_chunks rows mc mpd) d : Int) ≤ max mpd 0) := by
  have hinv : selInv mpd [] [] [] := by
    refine ⟨List.nodup_nil, by simp, by intro d _; simp [docOcc, pdGet], ?_⟩
    intro d _
    simp only [pdGet]
    exact_mod_cast le_max_right mpd 0
  simpa [select_chunks] using selectGo_inv mc mpd rows [] [] [] hinv (by exact_mod_cast hmc)

/-- Witness instantiating the selection-invariant theorem. -/
theorem select_chunks_invariants_witness :
    (1 : Int) ≤ 4 ∧
      ((select_chunks [⟨some "a", some "d", 0⟩, ⟨some "b", some "d", 1⟩] 4 2).length : Int)
        ≤ 4 :=
  ⟨by decide,
    (select_chunks_invariants [⟨some "a", some "d", 0⟩, ⟨some "b", some "d", 1⟩] 4 2
      (by decide)).1⟩

/-! ### Ticket-keyword precheck priority (claim C5) -/

/-- C5: whenever the stripped, lowercased message contains one of the ticket
keywords as a substring, `precheck_action` returns `create_ticket` at
confidence `0.35` — the keyword check runs before the hashtag branch, so a
message also carrying a `#tag` is still routed to ticket creation — and the
main.py chat decision then bypasses retrieval: its outcome is the same for
every possible knowledge-base retrieval result. -/
theorem precheck_ticket_keyword (message : String)
    (h : ticketKeywords.any
      (fun k => pySubstr k (pyLower (pyStrip message))) = true) :
    precheck_action message = some (ticketReplyText, "create_ticket", 0.35) ∧
    ∀ kb1 kb2, mainChatDecide message kb1 = mainChatDecide message kb2 ∧
      (mainChatDecide message kb1).2.1 = "create_ticket" ∧
      (mainChatDecide message kb1).2.2.1 = 0.35 := by
  have hne : ¬ pyLower (pyStrip message) = "" := by
    intro h0
    rw [h0] at h
    revert h
    decide
  have hpre : precheck_action message = some (ticketReplyText, "create_ticket", 0.35) := by
    simp only [precheck_action]
    rw [if_neg hne, if_pos h]
  refine ⟨hpre, ?_⟩
  intro kb1 kb2
  simp only [mainChatDecide, hpre]
  exact ⟨trivial, trivial, trivial⟩

/-- Witness: the spec's scenario message, which also exercises the `#tag`
variant. -/
theorem precheck_ticket_keyword_witness :
    ticketKeywords.any
      (fun k => pySubstr k (pyLower (pyStrip "I have a bug with login"))) = true ∧
    precheck_action "I have a bug with login" =
      some (ticketReplyText, "create_ticket", 0.35) :=
  ⟨by decide, (precheck_ticket_keyword "I have a bug with login" (by decide)).1⟩

/-! ### Confidence bounds (claim C4) -/

/-- The function `estimate_confidence` stays in `[0, 0.95]` on every chunk list. -/
theorem estimate_confidence_bounds (chunks : List GChunk) :
    0 ≤ estimate_confidence chunks ∧ estimate_confidence chunks ≤ 0.95 := by
  unfold estimate_confidence
  cases hsim : chunks.filterMap (fun c => c.similarity) with
  | nil =>
    by_cases hc : chunks ≠ [] <;> simp [hc] <;> norm_num
  | cons s rest =>
    exact ⟨le_max_left 0 _, max_le (by norm_num) (min_le_left _ _)⟩

/-- The function `adjust_confidence` re-clamps to `[0.05, 0.95]` on every input. -/
theorem adjust_confidence_bounds (c : ℚ) (cc : Int) (n : Nat) (r : String) :
    0.05 ≤ adjust_confidence c cc n r ∧ adjust_confidence c cc n r ≤ 0.95 :=
  ⟨le_max_left _ _, max_le (by norm_num) (min_le_left _ _)⟩

/-- C4 counterexample: with no completion provider configured and one chunk
whose similarity is `0` on an untenanted request, `generate_answer` returns
the raw estimate `0`, below the claimed `0.05` floor. -/
theorem generate_answer_confidence_claim_false :
    (generate_answer ⟨"", "", false, 1200, 6000, defaultClarifyPrompt⟩
        (fun _ _ => .error ()) "q"
        [⟨some "c1", some "d1", some "t", some "body", some "org1", some 0⟩] none).2.1
      = 0 ∧
    ¬ (0.05 ≤ (generate_answer ⟨"", "", false, 1200, 6000, defaultClarifyPrompt⟩
        (fun _ _ => .error ()) "q"
        [⟨some "c1", some "d1", some "t", some "body", some "org1", some 0⟩] none).2.1) := by
  have hest : (generate_answer ⟨"", "", false, 1200, 6000, defaultClarifyPrompt⟩
      (fun _ _ => .error ()) "q"
      [⟨some "c1", some "d1", some "t", some "body", some "org1", some 0⟩] none).2.1
      = pyMax 0 (pyMin 0.95 (List.foldl pyMax (0 : ℚ) [])) := rfl
  have hval : pyMax 0 (pyMin 0.95 (List.foldl pyMax (0 : ℚ) [])) = 0 := by
    show pyMax 0 (pyMin 0.95 (0 : ℚ)) = 0
    unfold pyMin pyMax
    rw [if_neg (show ¬((0.95 : ℚ) ≤ 0) by norm_num), if_pos (le_refl (0 : ℚ))]
  refine ⟨hest.trans hval, ?_⟩
  rw [hest, hval]
  norm_num

/-- C4 (amended): `generate_answer` always returns a confidence in
`[0, 0.95]` — the `0.05` floor only holds on the successful-generation path,
where `adjust_confidence` re-clamps; the fallback paths return the raw
estimate, which can be as low as `0` — and `estimate_confidence` always
returns a value in `[0, 0.95]`. -/
theorem generate_answer_confidence_bounds (env : GenEnv)
    (llm : String → String → Except Unit String) (query : String)
    (chunks : List GChunk) (org_id : Option String) :
    (0 ≤ (generate_answer env llm query chunks org_id).2.1 ∧
      (generate_answer env llm query chunks org_id).2.1 ≤ 0.95) ∧
    (0 ≤ estimate_confidence chunks ∧ estimate_confidence chunks ≤ 0.95) := by
  refine ⟨?_, estimate_confidence_bounds chunks⟩
  have hest := estimate_confidence_bounds (filter_chunks_by_org chunks org_id env.allow_global)
  simp only [generate_answer]
  split_ifs with h1 h2 h3
  · norm_num
  · exact hest
  · exact hest
  · cases hllm : llm query (build_context
        (filter_chunks_by_org chunks org_id env.allow_global)
        env.chunk_context_max_chars env.context_total_max_chars).1 with
    | error e => simp only [hllm]; exact hest
    | ok reply =>
      simp only [hllm]
      by_cases hr : reply = ""
      · simp only [if_pos hr]
        exact hest
      · simp only [if_neg hr]
        have := adjust_confidence_bounds
          (estimate_confidence (filter_chunks_by_org chunks org_id env.allow_global))
          (build_context (filter_chunks_by_org chunks org_id env.allow_global)
            env.chunk_context_max_chars env.context_total_max_chars).2
          (filter_chunks_by_org chunks org_id env.allow_global).length reply
        exact ⟨le_trans (by norm_num) this.1, this.2⟩

/-! ### Ingestion dictionaries: supporting lemmas (claims C1, C8) -/

/-- A dict lookup misses exactly when the key is absent. -/
theorem dictGet?_eq_none (m : List (String × Nat)) (k : String) :
    dictGet? m k = none ↔ k ∉ m.map Prod.fst := by
  induction m with
  | nil => simp [dictGet?]
  | cons p rest ih =>
    by_cases h : p.1 = k
    · rw [show dictGet? (p :: rest) k = some p.2 by
        unfold dictGet?
        rw [List.find?_cons_of_pos _ (by simp [h])]
        rfl]
      exact iff_of_false (Option.some_ne_none _)
        (fun hh => hh (List.mem_map.mpr ⟨p, List.mem_cons_self _ _, h⟩))
    · rw [show dictGet? (p :: rest) k = dictGet? rest k by
        unfold dictGet?
        rw [List.find?_cons_of_neg _ (by simp [h])]]
      rw [ih]
      constructor
      · intro hh hmem
        rw [List.map_cons, List.mem_cons] at hmem
        rcases hmem with h1 | h1
        · exact h h1.symm
        · exact hh h1
      · intro hh hmem
        exact hh (by rw [List.map_cons]; exact List.mem_cons_of_mem _ hmem)

/-- Keys after a dict assignment: the assigned key joins the key set. -/
theorem dictSet_keys_mem (m : List (String × Nat)) (k : String) (v : Nat) (h : String) :
    h ∈ (dictSet m k v).map Prod.fst ↔ h ∈ m.map Prod.fst ∨ h = k := by
  unfold dictSet
  by_cases hk : (dictGet? m k).isSome
  · rw [if_pos hk]
    have hkeys : (m.map (fun p => if p.1 == k then (p.1, v) else p)).map Prod.fst
        = m.map Prod.fst := by
      rw [List.map_map]
      refine List.map_congr_left ?_
      intro p _
      show (if p.1 == k then (p.1, v) else p).1 = p.1
      split <;> rfl
    rw [hkeys]
    have hkm : k ∈ m.map Prod.fst := by
      by_contra hcontra
      rw [(dictGet?_eq_none m k).mpr hcontra] at hk
      simp at hk
    constructor
    · exact Or.inl
    · rintro (hh | rfl)
      · exact hh
      · exact hkm
  · rw [if_neg hk]
    simp

/-- A fresh dict assignment is an append. -/
theorem dictSet_fresh (m : List (String × Nat)) (k : String) (v : Nat)
    (h : dictGet? m k = none) : dictSet m k v = m ++ [(k, v)] := by
  unfold dictSet
  rw [if_neg (by simp [h])]

/-- The dict `existingDict` is the fold of `existingStep`. -/
theorem existingDict_eq_foldl (rows : List ChunkRow) :
    existingDict rows = rows.foldl existingStep [] := rfl

/-- The `existingStep` equations. -/
theorem existingStep_pos (m : List (String × Nat)) (r : ChunkRow)
    (h : r.chunk_hash ≠ "") : existingStep m r = dictSet m r.chunk_hash r.id := by
  unfold existingStep
  rw [if_pos h]

/-- The step `existingStep` skips rows with a falsy hash. -/
theorem existingStep_neg (m : List (String × Nat)) (r : ChunkRow)
    (h : ¬ r.chunk_hash ≠ "") : existingStep m r = m := by
  unfold existingStep
  rw [if_neg h]

/-- Key membership in the `existing_hashes` dict: exactly the truthy hashes
of the stored rows. -/
theorem existingDict_keys (rows : List ChunkRow) (h : String) :
    h ∈ (existingDict rows).map Prod.fst ↔
      (h ≠ "" ∧ ∃ r ∈ rows, r.chunk_hash = h) := by
  rw [existingDict_eq_foldl]
  suffices key : ∀ (l : List ChunkRow) (acc : List (String × Nat)),
      h ∈ (l.foldl existingStep acc).map Prod.fst ↔
        h ∈ acc.map Prod.fst ∨ (h ≠ "" ∧ ∃ r ∈ l, r.chunk_hash = h) by
    simpa using key rows []
  intro l
  induction l with
  | nil => simp
  | cons r rest ih =>
    intro acc
    rw [List.foldl_cons]
    by_cases hr : r.chunk_hash ≠ ""
    · rw [existingStep_pos _ _ hr, ih, dictSet_keys_mem]
      constructor
      · rintro ((hmem | hh) | ⟨hne, rr, hrr, hrh⟩)
        · exact Or.inl hmem
        · exact Or.inr ⟨hh ▸ hr, r, List.mem_cons_self _ _, hh.symm⟩
        · exact Or.inr ⟨hne, rr, List.mem_cons_of_mem _ hrr, hrh⟩
      · rintro (hmem | ⟨hne, rr, hrr, hrh⟩)
        · exact Or.inl (Or.inl hmem)
        · rcases List.mem_cons.mp hrr with rfl | hrr
          · exact Or.inl (Or.inr hrh.symm)
          · exact Or.inr ⟨hne, rr, hrr, hrh⟩
    · rw [existingStep_neg _ _ hr, ih]
      push_neg at hr
      constructor
      · rintro (hmem | ⟨hne, rr, hrr, hrh⟩)
        · exact Or.inl hmem
        · exact Or.inr ⟨hne, rr, List.mem_cons_of_mem _ hrr, hrh⟩
      · rintro (hmem | ⟨hne, rr, hrr, hrh⟩)
        · exact Or.inl hmem
        · rcases List.mem_cons.mp hrr with rfl | hrr
          · exact absurd (hr.symm.trans hrh).symm hne
          · exact Or.inr ⟨hne, rr, hrr, hrh⟩

/-- With pairwise-distinct row hashes, no dict entry is ever overwritten:
`existing_hashes` is the row list itself (truthy hashes only), in order. -/
theorem existingDict_clean (rows : List ChunkRow)
    (hnd : (rows.map (fun r => r.chunk_hash)).Nodup) :
    existingDict rows =
      (rows.filter (fun r => r.chunk_hash ≠ "")).map (fun r => (r.chunk_hash, r.id)) := by
  rw [existingDict_eq_foldl]
  suffices key : ∀ (l : List ChunkRow) (acc : List (String × Nat)),
      (l.map (fun r => r.chunk_hash)).Nodup →
      (∀ r ∈ l, r.chunk_hash ∉ acc.map Prod.fst) →
      l.foldl existingStep acc =
        acc ++ (l.filter (fun r => r.chunk_hash ≠ "")).map (fun r => (r.chunk_hash, r.id)) by
    simpa using key rows [] hnd (by simp)
  intro l
  induction l with
  | nil => simp
  | cons r rest ih =>
    intro acc hnd hdisj
    rw [List.map_cons, List.nodup_cons] at hnd
    obtain ⟨hnd1, hnd2⟩ := hnd
    rw [List.foldl_cons]
    by_cases hr : r.chunk_hash ≠ ""
    · rw [existingStep_pos _ _ hr, dictSet_fresh _ _ _
        ((dictGet?_eq_none acc r.chunk_hash).mpr (hdisj r (List.mem_cons_self _ _)))]
      rw [ih (acc ++ [(r.chunk_hash, r.id)]) hnd2 ?_]
      · simp [List.filter_cons, hr]
      · intro rr hrr
        simp only [List.map_append, List.mem_append, List.map_cons, List.map_nil]
        rintro (hmem | hmem)
        · exact hdisj rr (List.mem_cons_of_mem _ hrr) hmem
        · have heq : rr.chunk_hash = r.chunk_hash := by simpa using hmem
          exact hnd1 (List.mem_map.mpr ⟨rr, hrr, heq⟩)
    · rw [existingStep_neg _ _ hr]
      rw [ih acc hnd2 (fun rr hrr => hdisj rr (List.mem_cons_of_mem _ hrr))]
      push_neg at hr
      simp [List.filter_cons, hr]

/-- Keys produced by the `unique_map` scan: the accumulator's keys plus the
hashes scanned. -/
theorem uniqueScan_mem_keys (h : String) :
    ∀ (l : List String) (i : Nat) (acc : List (String × Nat)),
      h ∈ (uniqueScan l i acc).map Prod.fst ↔ h ∈ acc.map Prod.fst ∨ h ∈ l := by
  intro l
  induction l with
  | nil => simp [uniqueScan]
  | cons x rest ih =>
    intro i acc
    unfold uniqueScan
    by_cases hx : (dictGet? acc x).isSome
    · rw [if_pos hx, ih]
      have hxm : x ∈ acc.map Prod.fst := by
        by_contra hcontra
        rw [(dictGet?_eq_none acc x).mpr hcontra] at hx
        cases hx
      constructor
      · rintro (hmem | hmem)
        · exact Or.inl hmem
        · exact Or.inr (List.mem_cons_of_mem _ hmem)
      · rintro (hmem | hmem)
        · exact Or.inl hmem
        · rcases List.mem_cons.mp hmem with rfl | hmem
          · exact Or.inl hxm
          · exact Or.inr hmem
    · rw [if_neg hx, ih]
      simp only [List.map_append, List.mem_append, List.map_cons, List.map_nil,
        List.mem_singleton, List.mem_cons]
      tauto

/-- The `unique_map` scan never repeats a key. -/
theorem uniqueScan_keys_nodup :
    ∀ (l : List String) (i : Nat) (acc : List (String × Nat)),
      (acc.map Prod.fst).Nodup → ((uniqueScan l i acc).map Prod.fst).Nodup := by
  intro l
  induction l with
  | nil => intro i acc h; simpa [uniqueScan] using h
  | cons x rest ih =>
    intro i acc hacc
    unfold uniqueScan
    by_cases hx : (dictGet? acc x).isSome
    · rw [if_pos hx]
      exact ih _ _ hacc
    · rw [if_neg hx]
      refine ih _ _ ?_
      have hxnot : x ∉ acc.map Prod.fst := by
        rw [← dictGet?_eq_none]
        exact Option.not_isSome_iff_eq_none.mp hx
      have hnd : (acc.map Prod.fst ++ [x]).Nodup := by
        rw [List.nodup_append]
        refine ⟨hacc, List.nodup_singleton _, ?_⟩
        intro a ha hax
        rw [List.mem_singleton] at hax
        exact hxnot (hax ▸ ha)
      simpa [List.map_append] using hnd

/-- The number of entries of the `unique_map` is the number of distinct
hashes scanned. -/
theorem uniqueScan_length_card (l : List String) :
    (uniqueScan l 0 []).length = l.toFinset.card := by
  have hnd : ((uniqueScan l 0 []).map Prod.fst).Nodup :=
    uniqueScan_keys_nodup l 0 [] (by simp)
  have hmem : ∀ h, h ∈ (uniqueScan l 0 []).map Prod.fst ↔ h ∈ l := by
    intro h
    rw [uniqueScan_mem_keys]
    simp
  have hfin : ((uniqueScan l 0 []).map Prod.fst).toFinset = l.toFinset := by
    ext a
    simp only [List.mem_toFinset]
    exact hmem a
  calc (uniqueScan l 0 []).length
      = ((uniqueScan l 0 []).map Prod.fst).length := (List.length_map _ _).symm
    _ = ((uniqueScan l 0 []).map Prod.fst).toFinset.card :=
        (List.toFinset_card_of_nodup hnd).symm
    _ = l.toFinset.card := by rw [hfin]

/-! ### Force re-ingestion (claim C8) -/

/-- C8: with `force=True`, every previously stored chunk row is deleted
(`chunks_deleted` equals the previous chunk count) and the full new unique
chunk set is inserted (`chunks_inserted` equals the number of distinct
content hashes of the new chunks, which is also `chunks_total`), regardless
of any hash overlap between old and new chunks.  The hypotheses are the
stored-row invariants: sha256 hashes are never falsy and `chunk_hash` is
unique per document. -/
theorem runIngest_force (doc : KbDocument) (store : List ChunkRow)
    (hashFn : String → String) (freshId : Nat → Nat) (cs co : Int)
    (horg : pyTruthy doc.org_id = true)
    (hchunks : chunk_text doc.content cs co ≠ [])
    (hne : ∀ r ∈ store, r.chunk_hash ≠ "")
    (hnd : (store.map (fun r => r.chunk_hash)).Nodup) :
    (runIngest (some doc) store hashFn freshId cs co true).map
      (fun o => (o.resp.chunks_deleted, o.resp.chunks_inserted, o.resp.chunks_total)) =
    .ok (store.length,
      ((chunk_text doc.content cs co).map hashFn).toFinset.card,
      ((chunk_text doc.content cs co).map hashFn).toFinset.card) := by
  have hdel : (existingDict store).length = store.length := by
    rw [existingDict_clean store hnd,
      List.filter_eq_self.mpr (fun r hr => by simpa using hne r hr),
      List.length_map]
  have hins : ∀ l : List String, (l.filter (fun h => (dictGet? [] h).isNone)) = l :=
    fun l => List.filter_eq_self.mpr (fun a _ => rfl)
  simp only [runIngest]
  rw [if_pos horg, if_neg hchunks]
  simp only [Except.map, if_true, List.length_map, List.enum_length]
  rw [hins]
  simp only [List.length_map]
  rw [hdel, uniqueScan_length_card]

/-- Witness for the force re-ingestion theorem at a concrete input. -/
theorem runIngest_force_witness :
    pyTruthy (some "o") = true ∧
    chunk_text "a b" 1 0 ≠ [] ∧
    (∀ r ∈ [ChunkRow.mk 5 "zz"], r.chunk_hash ≠ "") ∧
    ((([ChunkRow.mk 5 "zz"]).map (fun r => r.chunk_hash)).Nodup) ∧
    (runIngest (some ⟨some "o", "a b"⟩) [ChunkRow.mk 5 "zz"]
        (fun s => "h" ++ s) id 1 0 true).map
      (fun o => (o.resp.chunks_deleted, o.resp.chunks_inserted, o.resp.chunks_total)) =
    .ok ((List.length [ChunkRow.mk 5 "zz"]),
      ((chunk_text "a b" 1 0).map (fun s => "h" ++ s)).toFinset.card,
      ((chunk_text "a b" 1 0).map (fun s => "h" ++ s)).toFinset.card) :=
  ⟨by decide, by decide, by decide, by decide,
    runIngest_force ⟨some "o", "a b"⟩ [ChunkRow.mk 5 "zz"] (fun s => "h" ++ s) id 1 0
      (by decide) (by decide) (by decide) (by decide)⟩

/-! ### Idempotent re-ingestion (claim C1) -/

/-- Boolean containment agrees with membership (lawful `BEq`). -/
theorem contains_eq_true_iff {α : Type} [BEq α] [LawfulBEq α] (l : List α) (a : α) :
    l.contains a = true ↔ a ∈ l :=
  ⟨fun h => List.mem_of_elem_eq_true h, fun h => List.elem_eq_true_of_mem h⟩

/-- C1: re-running `run_ingest` (force=False) on unchanged document content
re-inserts nothing, deletes nothing, performs zero embedding calls and
leaves the stored chunk rows untouched.  The hypotheses are the store
invariants (row ids and hashes unique per document) and that the hash
function never yields the falsy string (sha256 hexdigests are nonempty). -/
theorem runIngest_idempotent (doc : KbDocument) (store : List ChunkRow)
    (hashFn : String → String) (freshId1 freshId2 : Nat → Nat) (cs co : Int)
    (o1 : IngestOutcome)
    (hhne : hashNonempty hashFn)
    (hids : (store.map (fun r => r.id)).Nodup)
    (hhashes : (store.map (fun r => r.chunk_hash)).Nodup)
    (h1 : runIngest (some doc) store hashFn freshId1 cs co false = .ok o1) :
    runIngest (some doc) o1.store hashFn freshId2 cs co false =
      .ok ⟨⟨o1.resp.chunks_total, 0, o1.resp.chunks_total, 0⟩, o1.store, 0⟩ := by
  by_cases horg : pyTruthy doc.org_id = true
  case neg =>
    simp only [runIngest] at h1
    rw [if_neg horg] at h1
    cases h1
  by_cases hch : chunk_text doc.content cs co = []
  case pos =>
    simp only [runIngest] at h1
    rw [if_pos horg, if_pos hch] at h1
    cases h1
  simp only [runIngest] at h1
  rw [if_pos horg, if_neg hch] at h1
  simp only [Bool.false_eq_true, if_false, Except.ok.injEq] at h1
  subst h1
  simp only [runIngest]
  rw [if_pos horg, if_neg hch]
  simp only [Bool.false_eq_true, if_false]
  set chunks := chunk_text doc.content cs co with hchunksdef
  set hs := chunks.map hashFn with hhsdef
  set U := uniqueScan hs 0 [] with hUdef
  set newHashes := U.map Prod.fst with hNHdef
  set E := existingDict store with hEdef
  set toDel := (E.filter (fun p => !(newHashes.contains p.1))).map Prod.snd with hTDdef
  set store1 := store.filter (fun r => !(toDel.contains r.id)) with hS1def
  set toIns := newHashes.filter (fun h => (dictGet? E h).isNone) with hTIdef
  set newRows := toIns.enum.map (fun p => ChunkRow.mk (freshId1 p.1) p.2) with hNRdef
  -- basic membership facts
  have hNR_hashes : newRows.map (fun r => r.chunk_hash) = toIns := by
    rw [hNRdef, List.map_map]
    exact List.enum_map_snd toIns
  have hNH_sub_hs : ∀ h, h ∈ newHashes → h ∈ hs := by
    intro h hmem
    rw [hNHdef, hUdef, uniqueScan_mem_keys] at hmem
    simpa using hmem
  have hNH_ne : ∀ h, h ∈ newHashes → h ≠ "" := by
    intro h hmem
    rcases List.mem_map.mp (hNH_sub_hs h hmem) with ⟨c, _, hc⟩
    rw [← hc]
    exact hhne c
  have hEclean : E = (store.filter (fun r => r.chunk_hash ≠ "")).map
      (fun r => (r.chunk_hash, r.id)) := existingDict_clean store hhashes
  -- every surviving or inserted row hash is among the new hashes
  have hstore2_hashes : ∀ r ∈ store1 ++ newRows, r.chunk_hash ≠ "" →
      r.chunk_hash ∈ newHashes := by
    intro r hr hrne
    rcases List.mem_append.mp hr with hr | hr
    · rw [hS1def] at hr
      rcases List.mem_filter.mp hr with ⟨hrstore, hrkeep⟩
      by_contra hnot
      have hpair : (r.chunk_hash, r.id) ∈ E := by
        rw [hEclean]
        exact List.mem_map.mpr ⟨r, List.mem_filter.mpr ⟨hrstore, by simpa using hrne⟩, rfl⟩
      have hcont : newHashes.contains r.chunk_hash = false := by
        cases hcase : newHashes.contains r.chunk_hash with
        | false => rfl
        | true => exact absurd ((contains_eq_true_iff _ _).mp hcase) hnot
      have hdel : r.id ∈ toDel := by
        rw [hTDdef]
        exact List.mem_map.mpr ⟨(r.chunk_hash, r.id),
          List.mem_filter.mpr ⟨hpair, by simp only [hcont, Bool.not_false]⟩, rfl⟩
      have : toDel.contains r.id = true := (contains_eq_true_iff _ _).mpr hdel
      rw [this] at hrkeep
      exact absurd hrkeep (by decide)
    · have : r.chunk_hash ∈ toIns := by
        rw [← hNR_hashes]
        exact List.mem_map.mpr ⟨r, hr, rfl⟩
      rw [hTIdef] at this
      exact (List.mem_filter.mp this).1
  -- every new hash already has a stored row
  have hcovered : ∀ h, h ∈ newHashes → ∃ r ∈ store1 ++ newRows, r.chunk_hash = h := by
    intro h hmem
    by_cases hIns : h ∈ toIns
    · have : h ∈ newRows.map (fun r => r.chunk_hash) := by
        rw [hNR_hashes]
        exact hIns
      rcases List.mem_map.mp this with ⟨r, hr, hrh⟩
      exact ⟨r, List.mem_append_right _ hr, hrh⟩
    · have hfound : (dictGet? E h).isNone = false := by
        cases hcase : (dictGet? E h).isNone with
        | false => rfl
        | true =>
          exact absurd (List.mem_filter.mpr ⟨hmem, by simp [hcase]⟩) (hTIdef ▸ hIns)
      have hkey : h ∈ E.map Prod.fst := by
        by_contra hcontra
        rw [(dictGet?_eq_none E h).mpr hcontra] at hfound
        cases hfound
      rw [hEdef, existingDict_keys] at hkey
      rcases hkey with ⟨hne, r, hrstore, hrh⟩
      refine ⟨r, List.mem_append_left _ ?_, hrh⟩
      rw [hS1def]
      refine List.mem_filter.mpr ⟨hrstore, ?_⟩
      have hnotdel : r.id ∉ toDel := by
        intro hdel
        rw [hTDdef] at hdel
        rcases List.mem_map.mp hdel with ⟨q, hq, hqsnd⟩
        rcases List.mem_filter.mp hq with ⟨hqE, hqpred⟩
        have hqfalse : newHashes.contains q.1 = false := by
          simpa using hqpred
        rw [hEclean] at hqE
        rcases List.mem_map.mp hqE with ⟨rr, hrrstore, hrrq⟩
        have hq1 : rr.chunk_hash = q.1 := congrArg Prod.fst hrrq
        have hq2 : rr.id = q.2 := congrArg Prod.snd hrrq
        have hrr_eq : rr = r := by
          apply List.inj_on_of_nodup_map hids (List.mem_of_mem_filter hrrstore) hrstore
          show rr.id = r.id
          rw [hq2]
          exact hqsnd
        have hq1h : q.1 = h := by rw [← hq1, hrr_eq, hrh]
        rw [hq1h, (contains_eq_true_iff _ _).mpr hmem] at hqfalse
        cases hqfalse
      cases hcase : toDel.contains r.id with
      | false => rfl
      | true => exact absurd ((contains_eq_true_iff _ _).mp hcase) hnotdel
  -- the second run's delete and insert sets are empty
  have F1 : (existingDict (store1 ++ newRows)).filter
      (fun p => !(newHashes.contains p.1)) = [] := by
    rw [List.filter_eq_nil_iff]
    intro p hp
    have hkey : p.1 ∈ (existingDict (store1 ++ newRows)).map Prod.fst :=
      List.mem_map.mpr ⟨p, hp, rfl⟩
    rw [existingDict_keys] at hkey
    rcases hkey with ⟨hne, r, hr, hrh⟩
    have hmemNH : p.1 ∈ newHashes := hrh ▸ hstore2_hashes r hr (hrh.symm ▸ hne)
    intro hbad
    rw [(contains_eq_true_iff _ _).mpr hmemNH] at hbad
    exact absurd hbad (by decide)
  have F2 : newHashes.filter
      (fun h => (dictGet? (existingDict (store1 ++ newRows)) h).isNone) = [] := by
    rw [List.filter_eq_nil_iff]
    intro h hmem
    rcases hcovered h hmem with ⟨r, hr, hrh⟩
    have hkey : h ∈ (existingDict (store1 ++ newRows)).map Prod.fst := by
      rw [existingDict_keys]
      exact ⟨hNH_ne h hmem, r, hr, hrh⟩
    have hnn : dictGet? (existingDict (store1 ++ newRows)) h ≠ none := by
      intro hn
      exact (dictGet?_eq_none _ h).mp hn hkey
    intro hno
    exact hnn (Option.isNone_iff_eq_none.mp hno)
  rw [F1, F2]
  simp [List.filter_eq_self]

/-- Witness for the idempotent re-ingestion theorem: a first run from an
empty store followed by the second run on its resulting store. -/
theorem runIngest_idempotent_witness :
    runIngest (some ⟨some "o", "a b"⟩) [] (fun s => "h" ++ s) id 1 0 false =
      .ok ⟨⟨2, 2, 0, 0⟩, [⟨0, "ha"⟩, ⟨1, "hb"⟩], 1⟩ ∧
    runIngest (some ⟨some "o", "a b"⟩) [ChunkRow.mk 0 "ha", ChunkRow.mk 1 "hb"]
        (fun s => "h" ++ s) id 1 0 false =
      .ok ⟨⟨2, 0, 2, 0⟩, [⟨0, "ha"⟩, ⟨1, "hb"⟩], 0⟩ :=
  ⟨rfl,
    runIngest_idempotent ⟨some "o", "a b"⟩ [] (fun s => "h" ++ s) id id 1 0
      ⟨⟨2, 2, 0, 0⟩, [⟨0, "ha"⟩, ⟨1, "hb"⟩], 1⟩
      (fun s hs => List.cons_ne_nil 'h' s.data (congrArg String.data hs))
      (by decide) (by decide) rfl⟩

/-! ### Tenant isolation of answer generation (claim C9) -/

/-- With the global opt-in disabled, org filtering keeps exactly the
requesting tenant's chunks. -/
theorem filter_chunks_by_org_no_global (chunks : List GChunk) (t : String) (ht : t ≠ "") :
    filter_chunks_by_org chunks (some t) false =
      chunks.filter (fun c => c.org_id == some t) := by
  unfold filter_chunks_by_org
  rw [if_pos (by simp [pyTruthy, ht])]
  apply List.filter_congr
  intro c _
  simp

/-- The function `generate_answer` only looks at the evidence through `filter_chunks_by_org`. -/
theorem generate_answer_congr (env : GenEnv) (llm : String → String → Except Unit String)
    (query : String) (c1 c2 : List GChunk) (org : Option String)
    (h : filter_chunks_by_org c1 org env.allow_global =
      filter_chunks_by_org c2 org env.allow_global) :
    generate_answer env llm query c1 org = generate_answer env llm query c2 org := by
  simp only [generate_answer, h]

/-- C9: with the global-evidence opt-in disabled and a nonempty tenant id,
the generated answer depends only on the in-tenant evidence: two evidence
lists whose in-tenant sublists agree (in order) give identical results, and
when no chunk belongs to the tenant the clarification prompt is returned
immediately at confidence `0.4`. -/
theorem generate_answer_tenant_isolation (env : GenEnv) (hg : env.allow_global = false)
    (llm : String → String → Except Unit String) (query : String) (t : String)
    (ht : t ≠ "") (chunks1 chunks2 : List GChunk)
    (hagree : chunks1.filter (fun c => c.org_id == some t) =
      chunks2.filter (fun c => c.org_id == some t)) :
    generate_answer env llm query chunks1 (some t) =
      generate_answer env llm query chunks2 (some t) ∧
    (chunks1.filter (fun c => c.org_id == some t) = [] →
      generate_answer env llm query chunks1 (some t) =
        (env.clarify, 0.4, "filtered_empty")) := by
  have h1 : filter_chunks_by_org chunks1 (some t) env.allow_global =
      chunks1.filter (fun c => c.org_id == some t) := by
    rw [hg]
    exact filter_chunks_by_org_no_global chunks1 t ht
  have h2 : filter_chunks_by_org chunks2 (some t) env.allow_global =
      chunks2.filter (fun c => c.org_id == some t) := by
    rw [hg]
    exact filter_chunks_by_org_no_global chunks2 t ht
  refine ⟨generate_answer_congr env llm query chunks1 chunks2 (some t)
    (by rw [h1, h2, hagree]), ?_⟩
  intro hemp
  have hfe : filter_chunks_by_org chunks1 (some t) env.allow_global = [] := by
    rw [h1, hemp]
  simp only [generate_answer, hfe]
  rw [if_pos ⟨by simp [pyTruthy, ht], trivial⟩]

/-- Witness for tenant isolation: an out-of-tenant chunk behaves exactly
like an empty evidence list. -/
theorem generate_answer_tenant_isolation_witness :
    ("org1" : String) ≠ "" ∧
    generate_answer ⟨"", "", false, 1200, 6000, "clarify"⟩ (fun _ _ => .error ()) "q"
        [⟨some "c", some "d", none, some "x", some "other", none⟩] (some "org1") =
      generate_answer ⟨"", "", false, 1200, 6000, "clarify"⟩ (fun _ _ => .error ()) "q"
        [] (some "org1") :=
  ⟨by decide,
    (generate_answer_tenant_isolation ⟨"", "", false, 1200, 6000, "clarify"⟩ rfl
      (fun _ _ => .error ()) "q" "org1" (by decide)
      [⟨some "c", some "d", none, some "x", some "other", none⟩] [] (by decide)).1⟩

/-! ### Decision-policy guardrails (claims C3, C6) -/

/-- Capping fact: `min(confidence, 0.4)` caps at `0.4`. -/
theorem pyMin_le_right (a b : ℚ) : pyMin a b ≤ b := by
  unfold pyMin
  split_ifs with h
  · exact h
  · exact le_refl b

/-- The low-similarity guardrail either leaves the state alone or downgrades
it to the clarification state. -/
theorem guardLowSimilarity_cases (policy : PolicyConfig) (clarify : String)
    (meta : RunMeta) (st : GuardState) :
    guardLowSimilarity policy clarify meta st = st ∨
    guardLowSimilarity policy clarify meta st =
      { reply := clarify, action := "ask_clarifying", confidence := pyMin st.confidence 0.4,
        citations := none, guardrail := some "low_similarity",
        decision_source := "guardrail", decision_reason := "guardrail_low_similarity" } := by
  unfold guardLowSimilarity
  by_cases h1 : st.action = "reply" ∧ meta.retrieval_source = some "vector"
  · rw [if_pos h1]
    cases hts : meta.top_similarity with
    | none => left; rfl
    | some ts =>
      dsimp only
      by_cases h2 : ts < policy.reply_min_similarity
      · rw [if_pos h2]
        right
        rfl
      · rw [if_neg h2]
        left
        rfl
  · rw [if_neg h1]
    left
    rfl

/-- C3: whenever the stage before the guardrail produced `action="reply"`
with falsy citations (a knowledge-base hit whose citations are `None` or
empty — the only way `action="reply"` reaches the guardrail, since the
precheck and heuristic branches of `handle_chat` raise on their 3-tuple
unpacking), `handle_chat` answers `ask_clarifying` with no citations, the
clarification prompt as reply text, no ticket, and confidence at most
`0.4`. -/
theorem handle_chat_guardrail_missing_citations
    (payload : ChatPayload) (org_id freshConvId : String) (priorMessages : List Msg)
    (retriever : String → String → String → Option RetrieverRes)
    (createTicket : Option String) (policy : PolicyConfig) (clarify : String)
    (res : RetrieverRes)
    (hpre : precheck_action (chatDecisionInputs payload priorMessages policy clarify).1 = none)
    (hret : retriever (chatDecisionInputs payload priorMessages policy clarify).2 org_id
      (chatConvId payload freshConvId) = some res)
    (hcits : pyFalsyList res.citations = true) :
    (handle_chat payload org_id freshConvId priorMessages retriever createTicket policy
        clarify).map (fun r => (r.action, r.citations, r.reply, r.ticket_id)) =
      .ok ("ask_clarifying", none, clarify, none) ∧
    (∀ r, handle_chat payload org_id freshConvId priorMessages retriever createTicket policy
        clarify = .ok r → r.confidence ≤ 0.4) := by
  have hcap := pyMin_le_right res.confidence 0.4
  simp only [handle_chat, hpre, hret]
  rcases guardLowSimilarity_cases policy clarify res.meta
      { reply := res.reply, action := "reply", confidence := res.confidence,
        citations := res.citations, guardrail := none, decision_source := "kb",
        decision_reason := if res.meta.retrieval_source == some "vector" then
          "kb_vector_match" else "kb_document_match" } with hcase | hcase <;>
    rw [hcase]
  · rw [show guardMissingCitations clarify
        { reply := res.reply, action := "reply", confidence := res.confidence,
          citations := res.citations, guardrail := none, decision_source := "kb",
          decision_reason := if res.meta.retrieval_source == some "vector" then
            "kb_vector_match" else "kb_document_match" } =
        { reply := clarify, action := "ask_clarifying",
          confidence := pyMin res.confidence 0.4, citations := none,
          guardrail := some "missing_citations", decision_source := "guardrail",
          decision_reason := "guardrail_missing_citations" } by
      unfold guardMissingCitations
      rw [if_pos ⟨rfl, hcits⟩]]
    rw [if_neg (fun h => Or.elim h
      (fun ha => (by decide : ("ask_clarifying" : String) ≠ "create_ticket") ha)
      (fun ha => (by decide : ("ask_clarifying" : String) ≠ "escalate") ha))]
    refine ⟨rfl, ?_⟩
    intro r hr
    rw [Except.ok.injEq] at hr
    rw [← hr]
    exact hcap
  · rw [show guardMissingCitations clarify
        { reply := clarify, action := "ask_clarifying",
          confidence := pyMin res.confidence 0.4, citations := none,
          guardrail := some "low_similarity", decision_source := "guardrail",
          decision_reason := "guardrail_low_similarity" } =
        { reply := clarify, action := "ask_clarifying",
          confidence := pyMin res.confidence 0.4, citations := none,
          guardrail := some "low_similarity", decision_source := "guardrail",
          decision_reason := "guardrail_low_similarity" } by
      unfold guardMissingCitations
      rw [if_neg (fun h =>
        (by decide : ("ask_clarifying" : String) ≠ "reply") h.1)]]
    rw [if_neg (fun h => Or.elim h
      (fun ha => (by decide : ("ask_clarifying" : String) ≠ "create_ticket") ha)
      (fun ha => (by decide : ("ask_clarifying" : String) ≠ "escalate") ha))]
    refine ⟨rfl, ?_⟩
    intro r hr
    rw [Except.ok.injEq] at hr
    rw [← hr]
    exact hcap

/-- Witness for the missing-citations guardrail at a concrete request. -/
theorem handle_chat_guardrail_missing_citations_witness :
    precheck_action (chatDecisionInputs ⟨none, "please explain the onboarding process"⟩
      [] ⟨6, 1200, 0.35⟩ defaultClarifyPrompt).1 = none ∧
    (handle_chat ⟨none, "please explain the onboarding process"⟩ "org1" "c1" []
        (fun _ _ _ => some ⟨"ans", some [], 0.9, ⟨some "vector", some 0.9⟩⟩) none
        ⟨6, 1200, 0.35⟩ defaultClarifyPrompt).map
      (fun r => (r.action, r.citations, r.reply, r.ticket_id)) =
      .ok ("ask_clarifying", none, defaultClarifyPrompt, none) :=
  ⟨by decide,
    (handle_chat_guardrail_missing_citations ⟨none, "please explain the onboarding process"⟩
      "org1" "c1" [] (fun _ _ _ => some ⟨"ans", some [], 0.9, ⟨some "vector", some 0.9⟩⟩)
      none ⟨6, 1200, 0.35⟩ defaultClarifyPrompt
      ⟨"ans", some [], 0.9, ⟨some "vector", some 0.9⟩⟩ (by decide) rfl rfl).1⟩

/-- C6: a vector-sourced reply whose top similarity `0.10` sits below the
configured floor `0.35` is downgraded by `handle_chat`: final action
`ask_clarifying`, `guardrail="low_similarity"`,
`decision_reason="guardrail_low_similarity"`, decision source `guardrail`,
no citations, the clarification prompt as reply, and confidence at most
`0.4`. -/
theorem handle_chat_guardrail_low_similarity
    (payload : ChatPayload) (org_id freshConvId : String) (priorMessages : List Msg)
    (retriever : String → String → String → Option RetrieverRes)
    (createTicket : Option String) (policy : PolicyConfig) (clarify : String)
    (res : RetrieverRes)
    (hpre : precheck_action (chatDecisionInputs payload priorMessages policy clarify).1 = none)
    (hret : retriever (chatDecisionInputs payload priorMessages policy clarify).2 org_id
      (chatConvId payload freshConvId) = some res)
    (hsrc : res.meta.retrieval_source = some "vector")
    (hsim : res.meta.top_similarity = some 0.1)
    (hfloor : policy.reply_min_similarity = 0.35) :
    (handle_chat payload org_id freshConvId priorMessages retriever createTicket policy
        clarify).map
      (fun r => (r.action, r.guardrail, r.decision_reason, r.decision_source,
        r.citations, r.reply)) =
      .ok ("ask_clarifying", some "low_similarity", "guardrail_low_similarity",
        "guardrail", none, clarify) ∧
    (∀ r, handle_chat payload org_id freshConvId priorMessages retriever createTicket policy
        clarify = .ok r → r.confidence ≤ 0.4) := by
  have hcap := pyMin_le_right res.confidence 0.4
  simp only [handle_chat, hpre, hret]
  rw [show guardLowSimilarity policy clarify res.meta
      { reply := res.reply, action := "reply", confidence := res.confidence,
        citations := res.citations, guardrail := none, decision_source := "kb",
        decision_reason := if res.meta.retrieval_source == some "vector" then
          "kb_vector_match" else "kb_document_match" } =
      { reply := clarify, action := "ask_clarifying",
        confidence := pyMin res.confidence 0.4, citations := none,
        guardrail := some "low_similarity", decision_source := "guardrail",
        decision_reason := "guardrail_low_similarity" } by
    unfold guardLowSimilarity
    rw [if_pos ⟨rfl, hsrc⟩]
    rw [hsim]
    dsimp only
    rw [hfloor]
    rw [if_pos (by norm_num : (0.1 : ℚ) < 0.35)]]
  rw [show guardMissingCitations clarify
      { reply := clarify, action := "ask_clarifying",
        confidence := pyMin res.confidence 0.4, citations := none,
        guardrail := some "low_similarity", decision_source := "guardrail",
        decision_reason := "guardrail_low_similarity" } =
      { reply := clarify, action := "ask_clarifying",
        confidence := pyMin res.confidence 0.4, citations := none,
        guardrail := some "low_similarity", decision_source := "guardrail",
        decision_reason := "guardrail_low_similarity" } by
    unfold guardMissingCitations
    rw [if_neg (fun h =>
      (by decide : ("ask_clarifying" : String) ≠ "reply") h.1)]]
  rw [if_neg (fun h => Or.elim h
    (fun ha => (by decide : ("ask_clarifying" : String) ≠ "create_ticket") ha)
    (fun ha => (by decide : ("ask_clarifying" : String) ≠ "escalate") ha))]
  refine ⟨rfl, ?_⟩
  intro r hr
  rw [Except.ok.injEq] at hr
  rw [← hr]
  exact hcap

/-- Witness for the low-similarity guardrail: the spec's scenario with top
similarity `0.10` against floor `0.35`. -/
theorem handle_chat_guardrail_low_similarity_witness :
    precheck_action (chatDecisionInputs ⟨none, "please explain the onboarding process"⟩
      [] ⟨6, 1200, 0.35⟩ defaultClarifyPrompt).1 = none ∧
    (handle_chat ⟨none, "please explain the onboarding process"⟩ "org1" "c1" []
        (fun _ _ _ => some ⟨"ans", some [1], 0.9, ⟨some "vector", some 0.1⟩⟩) none
        ⟨6, 1200, 0.35⟩ defaultClarifyPrompt).map
      (fun r => (r.action, r.guardrail, r.decision_reason, r.decision_source,
        r.citations, r.reply)) =
      .ok ("ask_clarifying", some "low_similarity", "guardrail_low_similarity",
        "guardrail", none, defaultClarifyPrompt) :=
  ⟨by decide,
    (handle_chat_guardrail_low_similarity ⟨none, "please explain the onboarding process"⟩
      "org1" "c1" [] (fun _ _ _ => some ⟨"ans", some [1], 0.9, ⟨some "vector", some 0.1⟩⟩)
      none ⟨6, 1200, 0.35⟩ defaultClarifyPrompt
      ⟨"ans", some [1], 0.9, ⟨some "vector", some 0.1⟩⟩ (by decide) rfl rfl rfl rfl).1⟩

end SupportOps
